import Mathlib

/-!
Windows Ink plugin: message interceptor, normaliser and single-subscriber publisher

A shallow embedding of `windows_ink_plugin.cpp` (namespace `windows_ink_plugin`).

* The Win32 SDK constants and macros the file uses (`WM_POINTER`, `WM_POINTERUPDATE`,
  `WM_POINTERUP`, `PT_PEN`, `GET_POINTERID_WPARAM`, `IS_POINTER_INCONTACT_WPARAM`) are not part
  of the repository and are taken as parameters (`WinSDK`).
* The operating-system calls (`GetPointerType`, `GetPointerPenInfo`, `ScreenToClient`,
  `DefSubclassProc`) are taken as parameters too (`OS`): one `OS` value is what the system
  answers while one message is being handled.
* Calls that leave the plugin (`DefSubclassProc`, `EventSink::Success`,
  `MethodResult::Success`, `MethodResult::NotImplemented`) are recorded, in order, in a trace.
* `double` values are finite binary64 numbers, identified with the rational they denote;
  a division is the exact quotient rounded to the nearest binary64 number, ties to even.
-/

namespace windows_ink_plugin

/-! ## binary64 arithmetic -/

/-- A finite `double`, identified with the rational number it denotes. -/
abbrev Double := ℚ

/-- Round-to-nearest, ties-to-even, to 53 significant bits. The exponent range is not
bounded here: every quotient the plugin forms (a 32-bit integer over 1024 or over 90) is zero
or has magnitude between 2^-7 and 2^32, far from binary64 overflow and underflow. -/
def roundDouble (q : ℚ) : Double :=
  if q = 0 then 0 else
    let e : ℤ := Int.log 2 |q| - 52
    let s : ℚ := |q| / (2 : ℚ) ^ e
    let f : ℤ := ⌊s⌋
    let r : ℚ := s - f
    let m : ℤ :=
      if r < 1 / 2 then f else if 1 / 2 < r then f + 1 else if f % 2 = 0 then f else f + 1
    (if q < 0 then -1 else 1) * (m : ℚ) * (2 : ℚ) ^ e

/-- The `/` of two doubles (the divisor is a non-zero constant at both uses). -/
def fdiv (x y : Double) : Double := roundDouble (x / y)

/-! ## Win32 data -/

abbrev HWND := Nat
abbrev UINT := Nat
abbrev WPARAM := Nat
abbrev LPARAM := Int
abbrev LRESULT := Int
abbrev UINT_PTR := Nat
abbrev DWORD_PTR := Nat
abbrev POINTER_INPUT_TYPE := Nat

/-- A 32-bit unsigned integer. -/
structure UINT32 where
  val : Nat
  isLt : val < 2 ^ 32
  deriving DecidableEq

/-- A 32-bit signed integer. -/
structure INT32 where
  val : Int
  inRange : -(2 ^ 31) ≤ val ∧ val < 2 ^ 31
  deriving DecidableEq

/-- A Win32 `LONG` is a 32-bit signed integer. -/
abbrev LONG := INT32

/-- The conversion `static_cast<double>(u)` of a 32-bit unsigned integer. -/
def UINT32.toDouble (u : UINT32) : Double := roundDouble (u.val : ℚ)

/-- The conversion `static_cast<double>(i)` of a 32-bit signed integer. -/
def INT32.toDouble (i : INT32) : Double := roundDouble (i.val : ℚ)

structure POINT where
  x : LONG
  y : LONG
  deriving DecidableEq

/-- The field of `POINTER_INFO` that the plugin reads. -/
structure POINTER_INFO where
  ptPixelLocation : POINT
  deriving DecidableEq

/-- The fields of `POINTER_PEN_INFO` that the plugin reads. -/
structure POINTER_PEN_INFO where
  pointerInfo : POINTER_INFO
  pressure : UINT32
  tiltX : INT32
  tiltY : INT32
  deriving DecidableEq

/-- The SDK names used by the plugin whose definitions live in the Windows headers. -/
structure WinSDK where
  WM_POINTER : UINT
  WM_POINTERUPDATE : UINT
  WM_POINTERUP : UINT
  PT_PEN : POINTER_INPUT_TYPE
  GET_POINTERID_WPARAM : WPARAM → UINT32
  IS_POINTER_INCONTACT_WPARAM : WPARAM → Bool

/-- What the operating system answers while one message is handled. A lookup that returns
`FALSE` is `none`; one that returns `TRUE` is `some` of the value written through the out
pointer. `ScreenToClient` gives the point as it stands after the call (its `BOOL` is ignored by
the plugin). `DefSubclassProc` gives the `LRESULT` of the rest of the subclass chain. -/
structure OS where
  GetPointerType : UINT32 → Option POINTER_INPUT_TYPE
  GetPointerPenInfo : UINT32 → Option POINTER_PEN_INFO
  ScreenToClient : HWND → POINT → POINT
  DefSubclassProc : HWND → UINT → WPARAM → LPARAM → LRESULT

/-! ## Flutter data -/

/-- The scalar alternatives of `flutter::EncodableValue` that the plugin builds. -/
inductive EncodableScalar where
  | null
  | bool (b : Bool)
  | double (d : Double)
  | string (s : String)
  deriving DecidableEq

/-- A `flutter::EncodableMap` (`std::map`): bindings with pairwise distinct keys, listed in the
order in which they were inserted. -/
abbrev EncodableMap := List (EncodableScalar × EncodableScalar)

/-- Insertion of `std::map`: a binding whose key is already present is not inserted. -/
def EncodableMap.insert (m : EncodableMap) (kv : EncodableScalar × EncodableScalar) :
    EncodableMap :=
  if m.any (fun p => p.1 = kv.1) then m else m ++ [kv]

/-- Construction of a `std::map` from an initializer list. -/
def EncodableMap.ofList (l : List (EncodableScalar × EncodableScalar)) : EncodableMap :=
  l.foldl EncodableMap.insert []

/-- The value bound to a key, when there is one. -/
def EncodableMap.find? (m : EncodableMap) (k : EncodableScalar) : Option EncodableScalar :=
  (List.find? (fun p => p.1 = k) m).map Prod.snd

/-- A `flutter::EncodableValue`: a scalar or a map. -/
inductive EncodableValue where
  | scalar (v : EncodableScalar)
  | map (m : EncodableMap)
  deriving DecidableEq

/-- The identity of an `EventSink` object. -/
abbrev EventSink := Nat

/-- A `std::unique_ptr<EventSink>`: `none` is `nullptr`. -/
abbrev UniquePtr := Option EventSink

/-- The type of the global `g_event_sink`, a `std::optional<std::unique_ptr<EventSink>>`:
`none` is `std::nullopt`, `some none` holds a null pointer, `some (some s)` holds sink `s`. -/
abbrev SinkSlot := Option UniquePtr

/-- What `std::optional::value` and a pointer dereference can raise. -/
inductive Exn where
  | bad_optional_access
  | null_dereference
  deriving DecidableEq

/-- A call that leaves the plugin. -/
inductive Effect where
  | DefSubclassProc (hWnd : HWND) (uMsg : UINT) (wParam : WPARAM) (lParam : LPARAM)
  | SinkSuccess (sink : EventSink) (event : EncodableValue)
  | ResultSuccess (value : EncodableValue)
  | ResultNotImplemented
  deriving DecidableEq

/-- The result of running one entry point: the returned value, the global afterwards and the
calls made, in order. -/
structure Outcome (α : Type) where
  ret : α
  g_event_sink : SinkSlot
  trace : List Effect
  deriving DecidableEq

/-- The member `std::optional::has_value`. -/
def has_value (o : SinkSlot) : Bool := o.isSome

/-- The member `std::optional::value`, which throws on `std::nullopt`. -/
def value (o : SinkSlot) : Except Exn UniquePtr :=
  match o with
  | some p => .ok p
  | none => .error .bad_optional_access

/-- The `->` of a `std::unique_ptr`. -/
def deref (p : UniquePtr) : Except Exn EventSink :=
  match p with
  | some s => .ok s
  | none => .error .null_dereference

/-! ## The plugin -/

/-- The global `g_event_sink` at program start: a default-constructed `std::optional`. -/
def g_event_sink_init : SinkSlot := none

/-- The on-listen function of the stream handler: `g_event_sink = std::move(events)`, then
`return nullptr` (no error). -/
def onListen (events : UniquePtr) (_g_event_sink : SinkSlot) : Outcome (Option Unit) :=
  { ret := none, g_event_sink := some events, trace := [] }

/-- The on-cancel function of the stream handler: `g_event_sink = std::nullopt`, then
`return nullptr` (no error). -/
def onCancel (_g_event_sink : SinkSlot) : Outcome (Option Unit) :=
  { ret := none, g_event_sink := none, trace := [] }

/-- The method `WindowsInkPlugin::HandleMethodCall`; the arguments of the call are not read. -/
def HandleMethodCall (method_name : String) (_arguments : EncodableValue)
    (g_event_sink : SinkSlot) : Outcome Unit :=
  if method_name = "isInkSupported" then
    { ret := (), g_event_sink := g_event_sink,
      trace := [.ResultSuccess (.scalar (.bool true))] }
  else
    { ret := (), g_event_sink := g_event_sink, trace := [.ResultNotImplemented] }

/-- The statement `return DefSubclassProc(hWnd, uMsg, wParam, lParam);` reached after the calls
in `before`. -/
def returnDefSubclassProc (os : OS) (g_event_sink : SinkSlot) (before : List Effect)
    (hWnd : HWND) (uMsg : UINT) (wParam : WPARAM) (lParam : LPARAM) :
    Except Exn (Outcome LRESULT) :=
  .ok { ret := os.DefSubclassProc hWnd uMsg wParam lParam,
        g_event_sink := g_event_sink,
        trace := before ++ [.DefSubclassProc hWnd uMsg wParam lParam] }

/-- The static member `WindowsInkPlugin::WndSubclassProc`. -/
def WndSubclassProc (sdk : WinSDK) (os : OS) (g_event_sink : SinkSlot)
    (hWnd : HWND) (uMsg : UINT) (wParam : WPARAM) (lParam : LPARAM)
    (_uIdSubclass : UINT_PTR) (_dwRefData : DWORD_PTR) : Except Exn (Outcome LRESULT) :=
  if uMsg = sdk.WM_POINTER ∨ uMsg = sdk.WM_POINTERUPDATE ∨ uMsg = sdk.WM_POINTERUP then
    let pointerId := sdk.GET_POINTERID_WPARAM wParam
    match os.GetPointerType pointerId with
    | none => returnDefSubclassProc os g_event_sink [] hWnd uMsg wParam lParam
    | some pointerType =>
      if pointerType ≠ sdk.PT_PEN then
        returnDefSubclassProc os g_event_sink [] hWnd uMsg wParam lParam
      else
        match os.GetPointerPenInfo pointerId with
        | none => returnDefSubclassProc os g_event_sink [] hWnd uMsg wParam lParam
        | some penInfo =>
          let pressure : Double := fdiv penInfo.pressure.toDouble 1024
          let tiltX : Double := fdiv penInfo.tiltX.toDouble 90
          let tiltY : Double := fdiv penInfo.tiltY.toDouble 90
          let pt : POINT := os.ScreenToClient hWnd penInfo.pointerInfo.ptPixelLocation
          let isDown : Bool := sdk.IS_POINTER_INCONTACT_WPARAM wParam
          let isUp : Bool := decide (uMsg = sdk.WM_POINTERUP)
          -- `g_event_sink.has_value() && g_event_sink.value() != nullptr`
          (if has_value g_event_sink then (value g_event_sink).map (fun p => p != none)
           else .ok false) >>= fun cond =>
          if cond then
            let event : EncodableMap := EncodableMap.ofList [
              (.string "type", .string (if isUp then "up" else if isDown then "down" else "move")),
              (.string "x", .double pt.x.toDouble),
              (.string "y", .double pt.y.toDouble),
              (.string "pressure", .double pressure),
              (.string "tiltX", .double tiltX),
              (.string "tiltY", .double tiltY)]
            value g_event_sink >>= fun p =>
            deref p >>= fun sink =>
            returnDefSubclassProc os g_event_sink [.SinkSuccess sink (.map event)]
              hWnd uMsg wParam lParam
          else
            returnDefSubclassProc os g_event_sink [] hWnd uMsg wParam lParam
  else
    returnDefSubclassProc os g_event_sink [] hWnd uMsg wParam lParam

/-! ## The message loop -/

/-- One window message as it reaches the subclass procedure, with what the operating system
answers while it is handled. -/
structure Message where
  os : OS
  hWnd : HWND
  uMsg : UINT
  wParam : WPARAM
  lParam : LPARAM
  uIdSubclass : UINT_PTR
  dwRefData : DWORD_PTR

/-- The subclass procedure applied to one message. -/
def dispatch (sdk : WinSDK) (g_event_sink : SinkSlot) (m : Message) :
    Except Exn (Outcome LRESULT) :=
  WndSubclassProc sdk m.os g_event_sink m.hWnd m.uMsg m.wParam m.lParam m.uIdSubclass
    m.dwRefData

/-- Messages handled one after another on the single UI thread: the global after one message
is the global before the next, and the traces are concatenated in order. -/
def processMessages (sdk : WinSDK) : List Message → SinkSlot → Except Exn (Outcome Unit)
  | [], g => .ok { ret := (), g_event_sink := g, trace := [] }
  | m :: ms, g =>
    dispatch sdk g m >>= fun o =>
    processMessages sdk ms o.g_event_sink >>= fun rest =>
    .ok { ret := (), g_event_sink := rest.g_event_sink, trace := o.trace ++ rest.trace }

/-- The events delivered to sinks in a trace, in order, each with the sink that received it. -/
def deliveries (t : List Effect) : List (EventSink × EncodableValue) :=
  t.filterMap fun e =>
    match e with
    | .SinkSuccess s ev => some (s, ev)
    | _ => none

/-- The events one given sink received in a trace, in order. -/
def deliveredTo (s : EventSink) (t : List Effect) : List EncodableValue :=
  ((deliveries t).filter fun d => d.1 = s).map Prod.snd

/-- The calls of default handling in a trace, in order, with their arguments. -/
def defaultCalls (t : List Effect) : List (HWND × UINT × WPARAM × LPARAM) :=
  t.filterMap fun e =>
    match e with
    | .DefSubclassProc h u w l => some (h, u, w, l)
    | _ => none

/-- The responses given to a method call in a trace, in order. -/
def responses (t : List Effect) : List Effect :=
  t.filter fun e =>
    match e with
    | .ResultSuccess _ => true
    | .ResultNotImplemented => true
    | _ => false

/-! ## The pipeline as the specification words it

These definitions follow sections 3, 4.1 to 4.5 and 6 of the specification; the theorems
compare them with `WndSubclassProc`. -/

/-- The answer of the Pointer Classifier (4.1). -/
inductive Classification where
  | Pen
  | Other
  | LookupFailed
  deriving DecidableEq

/-- The Pointer Classifier (4.1): the hardware type of the pointer, as the OS reports it. -/
def spec_classify (sdk : WinSDK) (os : OS) (pointerId : UINT32) : Classification :=
  match os.GetPointerType pointerId with
  | none => .LookupFailed
  | some t => if t = sdk.PT_PEN then .Pen else .Other

/-- The Pen Data Extractor (4.2): the raw sample, or `none` for `LookupFailed`. -/
def spec_extract (os : OS) (pointerId : UINT32) : Option POINTER_PEN_INFO :=
  os.GetPointerPenInfo pointerId

/-- The contact-transition classification of a PointerEvent (3). -/
inductive Kind where
  | Down
  | Move
  | Up
  deriving DecidableEq

/-- The string that names a kind in the payload (6). -/
def Kind.name : Kind → String
  | .Down => "down"
  | .Move => "move"
  | .Up => "up"

/-- The PointerEvent record (3). -/
structure PointerEvent where
  kind : Kind
  x : Double
  y : Double
  pressure : Double
  tiltX : Double
  tiltY : Double
  deriving DecidableEq

/-- The Normalizer (4.3): pressure is raw / 1024.0 (a quotient that is itself a binary64
number), tilt is degrees / 90.0 for each axis (a quotient that binary64 rounds), the position is
the screen position converted to the client space of the window, the kind is Up for an up
message, otherwise Down when the contact flag is set, otherwise Move. -/
def spec_normalize (os : OS) (sample : POINTER_PEN_INFO) (windowHandle : HWND)
    (upMessage contact : Bool) : PointerEvent :=
  { kind := if upMessage then .Up else if contact then .Down else .Move
    x := ((os.ScreenToClient windowHandle sample.pointerInfo.ptPixelLocation).x.val : ℚ)
    y := ((os.ScreenToClient windowHandle sample.pointerInfo.ptPixelLocation).y.val : ℚ)
    pressure := (sample.pressure.val : ℚ) / 1024
    tiltX := roundDouble ((sample.tiltX.val : ℚ) / 90)
    tiltY := roundDouble ((sample.tiltY.val : ℚ) / 90) }

/-- The payload of an event (6): a mapping with the six fixed field names. -/
def spec_payload (e : PointerEvent) : EncodableValue :=
  .map [(.string "type", .string e.kind.name),
        (.string "x", .double e.x),
        (.string "y", .double e.y),
        (.string "pressure", .double e.pressure),
        (.string "tiltX", .double e.tiltX),
        (.string "tiltY", .double e.tiltY)]

/-- Steps 1 to 5 of the Message Interceptor (4.5): the PointerEvent a message gives rise to,
if any. -/
def spec_pointerEvent (sdk : WinSDK) (m : Message) : Option PointerEvent :=
  if m.uMsg = sdk.WM_POINTER ∨ m.uMsg = sdk.WM_POINTERUPDATE ∨ m.uMsg = sdk.WM_POINTERUP then
    match spec_classify sdk m.os (sdk.GET_POINTERID_WPARAM m.wParam) with
    | .Pen =>
      match spec_extract m.os (sdk.GET_POINTERID_WPARAM m.wParam) with
      | some sample =>
        some (spec_normalize m.os sample m.hWnd (decide (m.uMsg = sdk.WM_POINTERUP))
          (sdk.IS_POINTER_INCONTACT_WPARAM m.wParam))
      | none => none
    | _ => none
  else none

/-- The push of the Event Publisher (4.4): deliver to the sink if one is present, otherwise do
nothing. -/
def spec_push (slot : SinkSlot) (event : EncodableValue) : List Effect :=
  match slot with
  | some (some sink) => [.SinkSuccess sink event]
  | _ => []

/-- The calls the specification prescribes for one message: the push of the event, if there is
one, then default handling. -/
def spec_trace (sdk : WinSDK) (slot : SinkSlot) (m : Message) : List Effect :=
  (match spec_pointerEvent sdk m with
    | some e => spec_push slot (spec_payload e)
    | none => [])
  ++ [.DefSubclassProc m.hWnd m.uMsg m.wParam m.lParam]

/-- The calls the specification prescribes for a sequence of messages handled in order while
the slot keeps one value. -/
def spec_traces (sdk : WinSDK) (slot : SinkSlot) : List Message → List Effect
  | [] => []
  | m :: ms => spec_trace sdk slot m ++ spec_traces sdk slot ms

/-! ## Sample data -/

/-- Reduction of an integer to the 32-bit signed range. -/
def INT32.wrap (n : Int) : INT32 :=
  ⟨(n + 2 ^ 31) % 2 ^ 32 - 2 ^ 31, by
    have h1 := Int.emod_nonneg (n + 2 ^ 31) (by norm_num : (2 ^ 32 : Int) ≠ 0)
    have h2 := Int.emod_lt_of_pos (n + 2 ^ 31) (by norm_num : (0 : Int) < 2 ^ 32)
    constructor <;> omega⟩

/-- The values of the Windows headers: message codes 0x0245 and 0x0247, pointer type 3, the
pointer id in the low word of `wParam` and the in-contact flag 0x0004 in its high word.
`WM_POINTER` is not a name of the Windows headers; the sample gives it the code 0x0246. -/
def sampleSDK : WinSDK :=
  { WM_POINTER := 0x0246
    WM_POINTERUPDATE := 0x0245
    WM_POINTERUP := 0x0247
    PT_PEN := 3
    GET_POINTERID_WPARAM := fun w => ⟨w % 65536, by omega⟩
    IS_POINTER_INCONTACT_WPARAM := fun w => decide (w / 262144 % 2 = 1) }

/-- A pen sample: pressure 512, tilt 45 and -45 degrees, screen position (150, 300). -/
def samplePen : POINTER_PEN_INFO :=
  { pointerInfo := { ptPixelLocation := { x := ⟨150, by decide⟩, y := ⟨300, by decide⟩ } }
    pressure := ⟨512, by decide⟩
    tiltX := ⟨45, by decide⟩
    tiltY := ⟨-45, by decide⟩ }

/-- An operating system whose every pointer is a pen with sample `samplePen`, whose windows
have their client origin at (50, 50), and whose default handling returns 7. -/
def sampleOS : OS :=
  { GetPointerType := fun _ => some 3
    GetPointerPenInfo := fun _ => some samplePen
    ScreenToClient := fun _ p => { x := INT32.wrap (p.x.val - 50), y := INT32.wrap (p.y.val - 50) }
    DefSubclassProc := fun _ _ _ _ => 7 }

/-- An operating system whose every pointer is a touch contact (pointer type 2). -/
def touchOS : OS :=
  { sampleOS with GetPointerType := fun _ => some 2 }

/-- A pointer-update message of pointer 1 with the in-contact flag set. -/
def sampleDown : Message :=
  { os := sampleOS, hWnd := 1, uMsg := 0x0245, wParam := 262145, lParam := 0,
    uIdSubclass := 1001, dwRefData := 0 }

/-- A pointer-up message of pointer 1 with the in-contact flag clear. -/
def sampleUp : Message :=
  { os := sampleOS, hWnd := 1, uMsg := 0x0247, wParam := 1, lParam := 0,
    uIdSubclass := 1001, dwRefData := 0 }

/-- A pointer-update message of a touch contact. -/
def sampleTouch : Message :=
  { os := touchOS, hWnd := 1, uMsg := 0x0245, wParam := 262145, lParam := 0,
    uIdSubclass := 1001, dwRefData := 0 }

/-! ## binary64 rounding: exactness, sign and bounds -/

/-- The sign factor times the magnitude gives the number back. -/
theorem signOf_mul_abs (q : ℚ) : (if q < 0 then (-1 : ℚ) else 1) * |q| = q := by
  split_ifs with h
  · rw [abs_of_neg h]; ring
  · rw [abs_of_nonneg (not_lt.mp h)]; ring

/-- When the scaled magnitude is already an integer, rounding changes nothing. -/
theorem roundDouble_of_scaled_int (q : ℚ) (N : ℤ)
    (hs : |q| / (2 : ℚ) ^ (Int.log 2 |q| - 52) = (N : ℚ)) : roundDouble q = q := by
  by_cases hq : q = 0
  · simp [roundDouble, hq]
  unfold roundDouble
  rw [if_neg hq]
  have hhalf : (0 : ℚ) < 1 / 2 := by norm_num
  simp only [hs, Int.floor_intCast, sub_self, hhalf, if_true]
  rw [mul_assoc, ← hs, div_mul_cancel₀ _ (ne_of_gt (zpow_pos (by norm_num) _))]
  exact signOf_mul_abs q

/-- A number with at most 53 significant bits is its own rounding. -/
theorem roundDouble_exact (m k : ℤ) (hm : |m| < 2 ^ 53) :
    roundDouble ((m : ℚ) * (2 : ℚ) ^ k) = (m : ℚ) * (2 : ℚ) ^ k := by
  by_cases hq : (m : ℚ) * (2 : ℚ) ^ k = 0
  · simp [roundDouble, hq]
  have h2k : (0 : ℚ) < (2 : ℚ) ^ k := zpow_pos (by norm_num) k
  have hpos : (0 : ℚ) < |(m : ℚ) * (2 : ℚ) ^ k| := abs_pos.mpr hq
  have habs : |(m : ℚ) * (2 : ℚ) ^ k| = ((|m| : ℤ) : ℚ) * (2 : ℚ) ^ k := by
    rw [abs_mul, abs_of_pos h2k, Int.cast_abs]
  have hlt : |(m : ℚ) * (2 : ℚ) ^ k| < (2 : ℚ) ^ (53 + k) := by
    rw [habs, zpow_add₀ (by norm_num : (2 : ℚ) ≠ 0)]
    have : ((|m| : ℤ) : ℚ) < (2 : ℚ) ^ (53 : ℤ) := by
      have := (Int.cast_lt (R := ℚ)).mpr hm
      norm_num at this ⊢
      exact this
    exact mul_lt_mul_of_pos_right this h2k
  have hlog : Int.log 2 |(m : ℚ) * (2 : ℚ) ^ k| < 53 + k := by
    have h1 := Int.zpow_log_le_self (R := ℚ) (b := 2) (by norm_num) hpos
    have h2 : (2 : ℚ) ^ Int.log 2 |(m : ℚ) * (2 : ℚ) ^ k| < (2 : ℚ) ^ (53 + k) := by
      have : (2 : ℚ) ^ Int.log 2 |(m : ℚ) * (2 : ℚ) ^ k| ≤ |(m : ℚ) * (2 : ℚ) ^ k| := by
        simpa using h1
      exact lt_of_le_of_lt this hlt
    exact (zpow_lt_zpow_iff_right₀ (by norm_num : (1 : ℚ) < 2)).mp h2
  obtain ⟨n, hn⟩ : ∃ n : ℕ, k - (Int.log 2 |(m : ℚ) * (2 : ℚ) ^ k| - 52) = (n : ℤ) :=
    Int.eq_ofNat_of_zero_le (by omega)
  apply roundDouble_of_scaled_int _ (|m| * 2 ^ n)
  rw [habs] at hn ⊢
  rw [mul_div_assoc, ← zpow_sub₀ (by norm_num : (2 : ℚ) ≠ 0), hn]
  push_cast
  rw [zpow_natCast]

/-- The shape of a rounding: the sign, an integer significand that is the floor of the scaled
magnitude or (when the fraction is at least one half) its successor, and the scale. -/
theorem roundDouble_shape (q : ℚ) (hq : q ≠ 0) :
    ∃ m : ℤ, roundDouble q
        = (if q < 0 then -1 else 1) * (m : ℚ) * (2 : ℚ) ^ (Int.log 2 |q| - 52)
      ∧ (m = ⌊|q| / (2 : ℚ) ^ (Int.log 2 |q| - 52)⌋
          ∨ (m = ⌊|q| / (2 : ℚ) ^ (Int.log 2 |q| - 52)⌋ + 1
              ∧ (1 : ℚ) / 2 ≤ |q| / (2 : ℚ) ^ (Int.log 2 |q| - 52)
                    - ⌊|q| / (2 : ℚ) ^ (Int.log 2 |q| - 52)⌋)) := by
  unfold roundDouble
  rw [if_neg hq]
  simp only []
  split_ifs with h1 h2 h3 h4 h5 h6 h7
  all_goals first
    | exact ⟨_, rfl, Or.inl rfl⟩
    | exact ⟨_, rfl, Or.inr ⟨rfl, not_lt.mp (by assumption)⟩⟩

/-- The scaled magnitude of a non-zero number is at least 2^52. -/
theorem scaled_ge (q : ℚ) (hq : q ≠ 0) :
    (2 : ℚ) ^ (52 : ℤ) ≤ |q| / (2 : ℚ) ^ (Int.log 2 |q| - 52) := by
  have hpos : (0 : ℚ) < |q| := abs_pos.mpr hq
  have h1 := Int.zpow_log_le_self (R := ℚ) (b := 2) (by norm_num) hpos
  have h1 : (2 : ℚ) ^ Int.log 2 |q| ≤ |q| := by simpa using h1
  rw [le_div_iff₀ (zpow_pos (by norm_num) _), ← zpow_add₀ (by norm_num : (2 : ℚ) ≠ 0)]
  have : (52 : ℤ) + (Int.log 2 |q| - 52) = Int.log 2 |q| := by ring
  rw [this]
  exact h1

/-- Rounding keeps the sign. -/
theorem roundDouble_pos (q : ℚ) (hq : 0 < q) : 0 < roundDouble q := by
  obtain ⟨m, hm, hcase⟩ := roundDouble_shape q (ne_of_gt hq)
  have hs := scaled_ge q (ne_of_gt hq)
  have hf : (1 : ℤ) ≤ ⌊|q| / (2 : ℚ) ^ (Int.log 2 |q| - 52)⌋ := by
    apply Int.le_floor.mpr
    refine le_trans ?_ hs
    norm_num
  have hmpos : (0 : ℤ) < m := by rcases hcase with h | ⟨h, _⟩ <;> omega
  rw [hm, if_neg (not_lt.mpr (le_of_lt hq))]
  have : (0 : ℚ) < (m : ℚ) := by exact_mod_cast hmpos
  have h2 : (0 : ℚ) < (2 : ℚ) ^ (Int.log 2 |q| - 52) := zpow_pos (by norm_num) _
  positivity

/-- Rounding commutes with negation. -/
theorem roundDouble_neg (q : ℚ) : roundDouble (-q) = -roundDouble q := by
  by_cases hq : q = 0
  · simp [hq, roundDouble]
  have hq' : -q ≠ 0 := neg_ne_zero.mpr hq
  unfold roundDouble
  rw [if_neg hq, if_neg hq']
  simp only [abs_neg, neg_lt_zero]
  rcases lt_or_gt_of_ne hq with h | h
  · rw [if_neg (not_lt.mpr (le_of_lt h)), if_pos h]; ring
  · rw [if_pos h, if_neg (not_lt.mpr (le_of_lt h))]; ring

/-- A number between zero and one rounds to a number that is at most one. -/
theorem roundDouble_le_one (q : ℚ) (h0 : 0 ≤ q) (h1 : q ≤ 1) : roundDouble q ≤ 1 := by
  rcases eq_or_lt_of_le h0 with hz | hpos
  · rw [← hz]; simp [roundDouble]
  have hq : q ≠ 0 := ne_of_gt hpos
  obtain ⟨m, hm, hcase⟩ := roundDouble_shape q hq
  rw [abs_of_pos hpos] at hm hcase
  have hL : Int.log 2 q ≤ 0 := by
    have := Int.log_mono_right (b := 2) hpos h1
    simpa using this
  obtain ⟨n, hn⟩ : ∃ n : ℕ, -(Int.log 2 q - 52) = (n : ℤ) :=
    Int.eq_ofNat_of_zero_le (by omega)
  have he : Int.log 2 q - 52 = -(n : ℤ) := by omega
  rw [he] at hm hcase
  have hsc : q / (2 : ℚ) ^ (-(n : ℤ)) = q * (2 : ℚ) ^ n := by
    rw [zpow_neg, zpow_natCast, div_inv_eq_mul]
  rw [hsc] at hcase
  have h2n : (0 : ℚ) < (2 : ℚ) ^ n := by positivity
  have hsle : q * (2 : ℚ) ^ n ≤ (((2 : ℤ) ^ n : ℤ) : ℚ) := by
    push_cast
    calc q * (2 : ℚ) ^ n ≤ 1 * (2 : ℚ) ^ n := mul_le_mul_of_nonneg_right h1 (le_of_lt h2n)
      _ = (2 : ℚ) ^ n := one_mul _
  have hfl : ⌊q * (2 : ℚ) ^ n⌋ ≤ (2 : ℤ) ^ n := by
    have := Int.floor_mono hsle
    rwa [Int.floor_intCast] at this
  have hmle : m ≤ (2 : ℤ) ^ n := by
    rcases hcase with h | ⟨h, hr⟩
    · rw [h]; exact hfl
    · rw [h]
      rcases eq_or_lt_of_le hfl with heq | hlt
      · exfalso
        rw [heq] at hr
        have : q * (2 : ℚ) ^ n - (((2 : ℤ) ^ n : ℤ) : ℚ) ≤ 0 := sub_nonpos.mpr hsle
        linarith
      · omega
  rw [hm, if_neg (not_lt.mpr h0), one_mul, zpow_neg, zpow_natCast]
  rw [← div_eq_mul_inv, div_le_one h2n]
  exact_mod_cast hmle

/-- The integer significand of a rounding is within one half of the scaled magnitude. -/
theorem roundDouble_shape_near (q : ℚ) (hq : q ≠ 0) :
    ∃ m : ℤ, roundDouble q
        = (if q < 0 then -1 else 1) * (m : ℚ) * (2 : ℚ) ^ (Int.log 2 |q| - 52)
      ∧ |(m : ℚ) - |q| / (2 : ℚ) ^ (Int.log 2 |q| - 52)| ≤ 1 / 2 := by
  have hfl := Int.floor_le (|q| / (2 : ℚ) ^ (Int.log 2 |q| - 52))
  have hlt := Int.lt_floor_add_one (|q| / (2 : ℚ) ^ (Int.log 2 |q| - 52))
  unfold roundDouble
  rw [if_neg hq]
  simp only []
  split_ifs with h1 h2 h3 h4 h5 h6 h7
  all_goals
    refine ⟨_, rfl, ?_⟩
    rw [abs_le]
    push_cast
    constructor <;> linarith

/-- A rounding differs from the number rounded by at most 2^-53 of its magnitude. -/
theorem roundDouble_near (q : ℚ) : |roundDouble q - q| ≤ |q| / 2 ^ 53 := by
  by_cases hq : q = 0
  · simp [hq, roundDouble]
  obtain ⟨m, hm, hnear⟩ := roundDouble_shape_near q hq
  have hpos : (0 : ℚ) < |q| := abs_pos.mpr hq
  have h2e : (0 : ℚ) < (2 : ℚ) ^ (Int.log 2 |q| - 52) := zpow_pos (by norm_num) _
  have hlog := Int.zpow_log_le_self (R := ℚ) (b := 2) (by norm_num) hpos
  have hlog : (2 : ℚ) ^ Int.log 2 |q| ≤ |q| := by simpa using hlog
  have hscale : (2 : ℚ) ^ (Int.log 2 |q| - 52) ≤ |q| / 2 ^ 52 := by
    rw [zpow_sub₀ (by norm_num : (2 : ℚ) ≠ 0)]
    have : (2 : ℚ) ^ (52 : ℤ) = 2 ^ 52 := by norm_num
    rw [this]
    exact div_le_div_of_nonneg_right hlog (by norm_num)
  have hdiff : roundDouble q - q
      = (if q < 0 then -1 else 1)
        * (((m : ℚ) - |q| / (2 : ℚ) ^ (Int.log 2 |q| - 52))
            * (2 : ℚ) ^ (Int.log 2 |q| - 52)) := by
    rw [hm, sub_mul, div_mul_cancel₀ _ (ne_of_gt h2e), mul_sub, signOf_mul_abs]
    ring
  have hsign : |(if q < 0 then (-1 : ℚ) else 1)| = 1 := by split_ifs <;> norm_num
  rw [hdiff, abs_mul, hsign, one_mul, abs_mul, abs_of_pos h2e]
  calc |(m : ℚ) - |q| / (2 : ℚ) ^ (Int.log 2 |q| - 52)| * (2 : ℚ) ^ (Int.log 2 |q| - 52)
      ≤ 1 / 2 * (|q| / 2 ^ 52) := mul_le_mul hnear hscale (le_of_lt h2e) (by norm_num)
    _ = |q| / 2 ^ 53 := by ring

/-- Every 32-bit unsigned integer converts to `double` exactly. -/
theorem UINT32_toDouble_exact (u : UINT32) : u.toDouble = (u.val : ℚ) := by
  have h := roundDouble_exact (u.val : ℤ) 0 (by
    have := u.isLt
    rw [abs_of_nonneg (Int.ofNat_nonneg _)]
    norm_num at this ⊢
    omega)
  simpa [UINT32.toDouble] using h

/-- Every 32-bit signed integer converts to `double` exactly. -/
theorem INT32_toDouble_exact (i : INT32) : i.toDouble = (i.val : ℚ) := by
  have h := roundDouble_exact i.val 0 (by
    have := i.inRange
    rw [abs_lt]
    norm_num at this ⊢
    omega)
  simpa [INT32.toDouble] using h

/-- Dividing a converted 32-bit unsigned integer by 1024.0 is exact. -/
theorem fdiv_1024_eq (u : UINT32) : fdiv u.toDouble 1024 = (u.val : ℚ) / 1024 := by
  have h := roundDouble_exact (u.val : ℤ) (-10) (by
    have := u.isLt
    rw [abs_of_nonneg (Int.ofNat_nonneg _)]
    norm_num at this ⊢
    omega)
  have e : ((u.val : ℤ) : ℚ) * (2 : ℚ) ^ (-10 : ℤ) = (u.val : ℚ) / 1024 := by
    rw [zpow_neg, div_eq_mul_inv]
    norm_num
  rw [e] at h
  rw [fdiv, UINT32_toDouble_exact]
  exact h

/-- Dividing a converted 32-bit signed integer by 90.0 rounds the exact quotient. -/
theorem fdiv_90_eq (i : INT32) : fdiv i.toDouble 90 = roundDouble ((i.val : ℚ) / 90) := by
  rw [fdiv, INT32_toDouble_exact]

/-- A quotient of magnitude at most one rounds to a number between -1 and 1. -/
theorem roundDouble_mem_unit (q : ℚ) (h1 : -1 ≤ q) (h2 : q ≤ 1) :
    -1 ≤ roundDouble q ∧ roundDouble q ≤ 1 := by
  rcases le_total 0 q with h0 | h0
  · refine ⟨?_, roundDouble_le_one q h0 h2⟩
    rcases eq_or_lt_of_le h0 with hz | hpos
    · rw [← hz]; simp [roundDouble]
    · linarith [roundDouble_pos q hpos]
  · have hn := roundDouble_le_one (-q) (by linarith) (by linarith)
    rw [roundDouble_neg] at hn
    refine ⟨by linarith, ?_⟩
    rcases eq_or_lt_of_le h0 with hz | hneg
    · rw [hz]; simp [roundDouble]
    · have := roundDouble_pos (-q) (by linarith)
      rw [roundDouble_neg] at this
      linarith

/-! ## The subclass procedure against the specification pipeline -/

/-- The initializer list of the event has six distinct keys, so all six bindings are kept. -/
theorem ofList_event (v1 v2 v3 v4 v5 v6 : EncodableScalar) :
    EncodableMap.ofList [(.string "type", v1), (.string "x", v2), (.string "y", v3),
        (.string "pressure", v4), (.string "tiltX", v5), (.string "tiltY", v6)]
      = [(.string "type", v1), (.string "x", v2), (.string "y", v3),
        (.string "pressure", v4), (.string "tiltX", v5), (.string "tiltY", v6)] := by
  simp [EncodableMap.ofList, EncodableMap.insert]

/-- The string the code puts under "type" is the name of the kind of the specification. -/
theorem type_string_eq (isUp isDown : Bool) :
    (if isUp then "up" else if isDown then "down" else "move")
      = (if isUp then Kind.Up else if isDown then Kind.Down else Kind.Move).name := by
  cases isUp <;> cases isDown <;> rfl

/-- For every message, every answer of the OS and every value of the global, the subclass
procedure returns normally with the result of default handling, leaves the global as it was,
and makes exactly the calls the specification prescribes. -/
theorem dispatch_eq (sdk : WinSDK) (g : SinkSlot) (m : Message) :
    dispatch sdk g m
      = .ok { ret := m.os.DefSubclassProc m.hWnd m.uMsg m.wParam m.lParam
              g_event_sink := g
              trace := spec_trace sdk g m } := by
  unfold dispatch WndSubclassProc spec_trace spec_pointerEvent spec_classify spec_extract
  by_cases hmsg : m.uMsg = sdk.WM_POINTER ∨ m.uMsg = sdk.WM_POINTERUPDATE
      ∨ m.uMsg = sdk.WM_POINTERUP
  · simp only [if_pos hmsg]
    cases htype : m.os.GetPointerType (sdk.GET_POINTERID_WPARAM m.wParam) with
    | none => simp [returnDefSubclassProc]
    | some t =>
      by_cases hpen : t = sdk.PT_PEN
      · cases hinfo : m.os.GetPointerPenInfo (sdk.GET_POINTERID_WPARAM m.wParam) with
        | none => simp [returnDefSubclassProc, hpen]
        | some penInfo =>
          rcases g with _ | _ | sink
          · simp [returnDefSubclassProc, hpen, has_value, spec_push, bind, Except.bind]
          · simp [returnDefSubclassProc, hpen, has_value, value, spec_push, bind, Except.bind,
              Except.map]
          · simp only [returnDefSubclassProc, hpen, has_value, value, deref, spec_push, bind,
              Except.bind, Except.map, ofList_event, fdiv_1024_eq, fdiv_90_eq,
              INT32_toDouble_exact, type_string_eq, spec_payload, spec_normalize]
            simp [fdiv]
      · simp [returnDefSubclassProc, hpen]
  · simp [if_neg hmsg, returnDefSubclassProc]

/-- The subclass procedure, with its arguments spelled out, against the specification. -/
theorem WndSubclassProc_eq (sdk : WinSDK) (os : OS) (g : SinkSlot) (hWnd : HWND) (uMsg : UINT)
    (wParam : WPARAM) (lParam : LPARAM) (uIdSubclass : UINT_PTR) (dwRefData : DWORD_PTR) :
    WndSubclassProc sdk os g hWnd uMsg wParam lParam uIdSubclass dwRefData
      = .ok { ret := os.DefSubclassProc hWnd uMsg wParam lParam
              g_event_sink := g
              trace := spec_trace sdk g
                ⟨os, hWnd, uMsg, wParam, lParam, uIdSubclass, dwRefData⟩ } :=
  dispatch_eq sdk g ⟨os, hWnd, uMsg, wParam, lParam, uIdSubclass, dwRefData⟩

/-- A sequence of messages runs to completion, leaves the global as it was and makes the calls
of the specification, message by message. -/
theorem processMessages_eq (sdk : WinSDK) (g : SinkSlot) (ms : List Message) :
    processMessages sdk ms g
      = .ok { ret := (), g_event_sink := g, trace := spec_traces sdk g ms } := by
  induction ms with
  | nil => rfl
  | cons m ms ih =>
    simp [processMessages, dispatch_eq, ih, spec_traces, bind, Except.bind]

/-- Default handling is called exactly once in the trace of one message. -/
theorem defaultCalls_spec_trace (sdk : WinSDK) (g : SinkSlot) (m : Message) :
    defaultCalls (spec_trace sdk g m) = [(m.hWnd, m.uMsg, m.wParam, m.lParam)] := by
  unfold spec_trace
  cases spec_pointerEvent sdk m with
  | none => simp [defaultCalls]
  | some e => rcases g with _ | _ | s <;> simp [defaultCalls, spec_push]

/-- The deliveries of one message: the event of the message, to the sink of the slot. -/
theorem deliveries_spec_trace (sdk : WinSDK) (g : SinkSlot) (m : Message) :
    deliveries (spec_trace sdk g m)
      = match g, spec_pointerEvent sdk m with
        | some (some s), some e => [(s, spec_payload e)]
        | _, _ => [] := by
  unfold spec_trace
  cases spec_pointerEvent sdk m with
  | none => rcases g with _ | _ | s <;> simp [deliveries]
  | some e => rcases g with _ | _ | s <;> simp [deliveries, spec_push]

/-- The deliveries of a concatenation are the concatenation of the deliveries. -/
theorem deliveries_append (t u : List Effect) :
    deliveries (t ++ u) = deliveries t ++ deliveries u := by
  simp [deliveries, List.filterMap_append]

/-- With a sink in the slot, the deliveries of a sequence are the events of its messages, in
order, all to that sink. -/
theorem deliveries_spec_traces_sink (sdk : WinSDK) (s : EventSink) (ms : List Message) :
    deliveries (spec_traces sdk (some (some s)) ms)
      = (ms.filterMap (spec_pointerEvent sdk)).map (fun e => (s, spec_payload e)) := by
  induction ms with
  | nil => rfl
  | cons m ms ih =>
    rw [spec_traces, deliveries_append, ih, deliveries_spec_trace]
    cases h : spec_pointerEvent sdk m <;> simp [List.filterMap_cons, h]

/-- Without a sink in the slot (no value, or a null pointer), a sequence delivers nothing. -/
theorem deliveries_spec_traces_empty (sdk : WinSDK) (g : SinkSlot)
    (hg : g = none ∨ g = some none) (ms : List Message) :
    deliveries (spec_traces sdk g ms) = [] := by
  induction ms with
  | nil => rfl
  | cons m ms ih =>
    rw [spec_traces, deliveries_append, ih, deliveries_spec_trace]
    rcases hg with rfl | rfl <;> simp

/-- An event in the trace of one message went to the sink of the slot and is the payload of
the event of the message. -/
theorem mem_spec_trace (sdk : WinSDK) (g : SinkSlot) (m : Message) (sink : EventSink)
    (ev : EncodableValue) (h : Effect.SinkSuccess sink ev ∈ spec_trace sdk g m) :
    g = some (some sink) ∧ ∃ e, spec_pointerEvent sdk m = some e ∧ ev = spec_payload e := by
  unfold spec_trace at h
  cases he : spec_pointerEvent sdk m with
  | none => simp [he] at h
  | some e =>
    rcases g with _ | _ | s
    · simp [he, spec_push] at h
    · simp [he, spec_push] at h
    · simp only [he, spec_push, List.mem_append, List.mem_singleton, Effect.SinkSuccess.injEq,
        reduceCtorEq, or_false] at h
      exact ⟨by rw [h.1], e, rfl, h.2⟩

/-- A message has an event only if it is a pointer message of a pointer the OS reports as a
pen and whose pen sample the OS returns; the event is the normalised sample. -/
theorem spec_pointerEvent_some (sdk : WinSDK) (m : Message) (e : PointerEvent)
    (h : spec_pointerEvent sdk m = some e) :
    (m.uMsg = sdk.WM_POINTER ∨ m.uMsg = sdk.WM_POINTERUPDATE ∨ m.uMsg = sdk.WM_POINTERUP)
    ∧ m.os.GetPointerType (sdk.GET_POINTERID_WPARAM m.wParam) = some sdk.PT_PEN
    ∧ ∃ penInfo, m.os.GetPointerPenInfo (sdk.GET_POINTERID_WPARAM m.wParam) = some penInfo
        ∧ e = spec_normalize m.os penInfo m.hWnd (decide (m.uMsg = sdk.WM_POINTERUP))
              (sdk.IS_POINTER_INCONTACT_WPARAM m.wParam) := by
  unfold spec_pointerEvent spec_classify spec_extract at h
  by_cases hmsg : m.uMsg = sdk.WM_POINTER ∨ m.uMsg = sdk.WM_POINTERUPDATE
      ∨ m.uMsg = sdk.WM_POINTERUP
  · rw [if_pos hmsg] at h
    cases htype : m.os.GetPointerType (sdk.GET_POINTERID_WPARAM m.wParam) with
    | none => simp [htype] at h
    | some t =>
      by_cases hpen : t = sdk.PT_PEN
      · cases hinfo : m.os.GetPointerPenInfo (sdk.GET_POINTERID_WPARAM m.wParam) with
        | none => simp [htype, hpen, hinfo] at h
        | some penInfo =>
          simp only [htype, hpen, hinfo, if_true, Option.some.injEq] at h
          exact ⟨hmsg, by rw [hpen], penInfo, rfl, h.symm⟩
      · simp [htype, hpen] at h
  · rw [if_neg hmsg] at h
    exact absurd h (by simp)

/-- A pointer message of a pen whose sample the OS returns has the normalised sample as its
event. -/
theorem spec_pointerEvent_pen (sdk : WinSDK) (m : Message) (penInfo : POINTER_PEN_INFO)
    (hmsg : m.uMsg = sdk.WM_POINTER ∨ m.uMsg = sdk.WM_POINTERUPDATE ∨ m.uMsg = sdk.WM_POINTERUP)
    (htype : m.os.GetPointerType (sdk.GET_POINTERID_WPARAM m.wParam) = some sdk.PT_PEN)
    (hpen : m.os.GetPointerPenInfo (sdk.GET_POINTERID_WPARAM m.wParam) = some penInfo) :
    spec_pointerEvent sdk m
      = some (spec_normalize m.os penInfo m.hWnd (decide (m.uMsg = sdk.WM_POINTERUP))
              (sdk.IS_POINTER_INCONTACT_WPARAM m.wParam)) := by
  unfold spec_pointerEvent spec_classify spec_extract
  simp [hmsg, htype, hpen]

/-- The half of 45 over 90 and its negative are binary64 numbers. -/
theorem roundDouble_half : roundDouble (1 / 2) = 1 / 2 ∧ roundDouble (-(1 / 2)) = -(1 / 2) := by
  have h := roundDouble_exact 1 (-1) (by norm_num)
  have e : ((1 : ℤ) : ℚ) * (2 : ℚ) ^ (-1 : ℤ) = 1 / 2 := by norm_num
  rw [e] at h
  exact ⟨h, by rw [roundDouble_neg, h]⟩

/-! ## The claims -/

/-- C1: for every message, every outcome of the pointer-type and pen-info lookups and every
state of the subscriber slot, `WndSubclassProc` returns normally, calls `DefSubclassProc`
exactly once, as its last action, with the window handle, message code, `wParam` and `lParam`
it received, and returns the result of that call. -/
theorem C1_default_handling_exactly_once (sdk : WinSDK) (os : OS) (g : SinkSlot) (hWnd : HWND)
    (uMsg : UINT) (wParam : WPARAM) (lParam : LPARAM) (uIdSubclass : UINT_PTR)
    (dwRefData : DWORD_PTR) :
    ∃ o : Outcome LRESULT,
      WndSubclassProc sdk os g hWnd uMsg wParam lParam uIdSubclass dwRefData = .ok o
      ∧ defaultCalls o.trace = [(hWnd, uMsg, wParam, lParam)]
      ∧ o.trace.getLast? = some (.DefSubclassProc hWnd uMsg wParam lParam)
      ∧ o.ret = os.DefSubclassProc hWnd uMsg wParam lParam := by
  refine ⟨_, WndSubclassProc_eq sdk os g hWnd uMsg wParam lParam uIdSubclass dwRefData, ?_, ?_,
    rfl⟩
  · exact defaultCalls_spec_trace sdk g _
  · simp [spec_trace]

/-- C2: when the message is not one of the three pointer messages, or the pointer-type lookup
fails, or the reported type is not the pen type, or the pen-info lookup fails, then whatever the
subscriber slot holds `WndSubclassProc` delivers no event to any sink, leaves the slot as it
was, and only calls default handling. -/
theorem C2_no_event_unless_pen_sample (sdk : WinSDK) (os : OS) (g : SinkSlot) (hWnd : HWND)
    (uMsg : UINT) (wParam : WPARAM) (lParam : LPARAM) (uIdSubclass : UINT_PTR)
    (dwRefData : DWORD_PTR)
    (h : ¬ (uMsg = sdk.WM_POINTER ∨ uMsg = sdk.WM_POINTERUPDATE ∨ uMsg = sdk.WM_POINTERUP)
      ∨ os.GetPointerType (sdk.GET_POINTERID_WPARAM wParam) = none
      ∨ (∃ t, os.GetPointerType (sdk.GET_POINTERID_WPARAM wParam) = some t ∧ t ≠ sdk.PT_PEN)
      ∨ os.GetPointerPenInfo (sdk.GET_POINTERID_WPARAM wParam) = none) :
    ∃ o : Outcome LRESULT,
      WndSubclassProc sdk os g hWnd uMsg wParam lParam uIdSubclass dwRefData = .ok o
      ∧ deliveries o.trace = []
      ∧ o.g_event_sink = g
      ∧ o.trace = [.DefSubclassProc hWnd uMsg wParam lParam] := by
  have hnone : spec_pointerEvent sdk ⟨os, hWnd, uMsg, wParam, lParam, uIdSubclass, dwRefData⟩
      = none := by
    unfold spec_pointerEvent spec_classify spec_extract
    rcases h with h | h | ⟨t, h, ht⟩ | h
    · simp [h]
    · simp [h]
    · simp [h, ht]
    · simp only [h]
      split_ifs
      · split <;> rfl
      · rfl
  have htrace : spec_trace sdk g ⟨os, hWnd, uMsg, wParam, lParam, uIdSubclass, dwRefData⟩
      = [.DefSubclassProc hWnd uMsg wParam lParam] := by
    simp [spec_trace, hnone]
  refine ⟨_, WndSubclassProc_eq sdk os g hWnd uMsg wParam lParam uIdSubclass dwRefData, ?_,
    rfl, htrace⟩
  simp [htrace, deliveries]

/-- C2 at a concrete input: a touch contact (pointer type 2, not the pen type 3) sends a pointer
message while sink 5 is subscribed. -/
theorem C2_no_event_unless_pen_sample_witness :
    (¬ ((0x0245 : UINT) = sampleSDK.WM_POINTER ∨ (0x0245 : UINT) = sampleSDK.WM_POINTERUPDATE
          ∨ (0x0245 : UINT) = sampleSDK.WM_POINTERUP)
      ∨ touchOS.GetPointerType (sampleSDK.GET_POINTERID_WPARAM 262145) = none
      ∨ (∃ t, touchOS.GetPointerType (sampleSDK.GET_POINTERID_WPARAM 262145) = some t
            ∧ t ≠ sampleSDK.PT_PEN)
      ∨ touchOS.GetPointerPenInfo (sampleSDK.GET_POINTERID_WPARAM 262145) = none)
    ∧ ∃ o : Outcome LRESULT,
      WndSubclassProc sampleSDK touchOS (some (some 5)) 1 0x0245 262145 0 1001 0 = .ok o
      ∧ deliveries o.trace = []
      ∧ o.g_event_sink = some (some 5)
      ∧ o.trace = [.DefSubclassProc 1 0x0245 262145 0] :=
  have h : ∃ t, touchOS.GetPointerType (sampleSDK.GET_POINTERID_WPARAM 262145) = some t
      ∧ t ≠ sampleSDK.PT_PEN := ⟨2, rfl, by decide⟩
  ⟨Or.inr (Or.inr (Or.inl h)),
    C2_no_event_unless_pen_sample sampleSDK touchOS (some (some 5)) 1 0x0245 262145 0 1001 0
      (Or.inr (Or.inr (Or.inl h)))⟩


/-- C3: in every event `WndSubclassProc` publishes, the field "type" is "up" when the message
code is the pointer-up code, whatever the in-contact flag of `wParam`; otherwise it is "down"
when the flag is set and "move" when it is clear. -/
theorem C3_event_type (sdk : WinSDK) (os : OS) (g : SinkSlot) (hWnd : HWND)
    (uMsg : UINT) (wParam : WPARAM) (lParam : LPARAM) (uIdSubclass : UINT_PTR)
    (dwRefData : DWORD_PTR) :
    ∃ o : Outcome LRESULT,
      WndSubclassProc sdk os g hWnd uMsg wParam lParam uIdSubclass dwRefData = .ok o
      ∧ ∀ sink ev, Effect.SinkSuccess sink ev ∈ o.trace →
          ∃ fields : EncodableMap, ev = .map fields
            ∧ fields.find? (.string "type")
                = some (.string
                    (if uMsg = sdk.WM_POINTERUP then "up"
                     else if sdk.IS_POINTER_INCONTACT_WPARAM wParam = true then "down"
                     else "move")) := by
  refine ⟨_, WndSubclassProc_eq sdk os g hWnd uMsg wParam lParam uIdSubclass dwRefData, ?_⟩
  intro sink ev hmem
  obtain ⟨_, e, he, hev⟩ := mem_spec_trace sdk g _ sink ev hmem
  obtain ⟨_, _, penInfo, _, hnorm⟩ := spec_pointerEvent_some sdk _ e he
  refine ⟨_, hev, ?_⟩
  subst hnorm
  by_cases hup : uMsg = sdk.WM_POINTERUP
  · simp [EncodableMap.find?, spec_normalize, hup, Kind.name]
  · cases hc : sdk.IS_POINTER_INCONTACT_WPARAM wParam <;>
      simp [EncodableMap.find?, spec_normalize, hup, hc, Kind.name]

/-- C3 at a concrete input: a pointer-up message of a pen whose `wParam` has the in-contact
flag set publishes an event of type "up". -/
theorem C3_event_type_witness :
    ∃ o : Outcome LRESULT,
      WndSubclassProc sampleSDK sampleOS (some (some 5)) 1 0x0247 262145 0 1001 0 = .ok o
      ∧ sampleSDK.IS_POINTER_INCONTACT_WPARAM 262145 = true
      ∧ ∃ ev fields, Effect.SinkSuccess 5 ev ∈ o.trace ∧ ev = .map fields
          ∧ fields.find? (.string "type") = some (.string "up") := by
  obtain ⟨o, ho, h⟩ := C3_event_type sampleSDK sampleOS (some (some 5)) 1 0x0247 262145 0 1001 0
  refine ⟨o, ho, by decide, ?_⟩
  have hrun := WndSubclassProc_eq sampleSDK sampleOS (some (some 5)) 1 0x0247 262145 0 1001 0
  rw [hrun] at ho
  have ho := Except.ok.inj ho
  have hpen := spec_pointerEvent_pen sampleSDK ⟨sampleOS, 1, 0x0247, 262145, 0, 1001, 0⟩
    samplePen (Or.inr (Or.inr rfl)) rfl rfl
  have hmem : Effect.SinkSuccess 5 (spec_payload (spec_normalize sampleOS samplePen 1
      (decide ((0x0247 : UINT) = sampleSDK.WM_POINTERUP))
      (sampleSDK.IS_POINTER_INCONTACT_WPARAM 262145))) ∈ o.trace := by
    rw [← ho]
    simp [spec_trace, hpen, spec_push]
  obtain ⟨fields, hev, hfind⟩ := h 5 _ hmem
  exact ⟨_, fields, hmem, hev, by simpa [sampleSDK] using hfind⟩

/-- C4: for a pointer message of a pen whose pen sample the OS returns, handled while a
non-null sink is subscribed, `WndSubclassProc` delivers exactly one event, to that sink, then
calls default handling; the event is the map with the six keys type, x, y, pressure, tiltX,
tiltY, where x and y are the screen position of the sample minus the client-area origin of the
window (when that is what `ScreenToClient` computes), pressure is the raw pressure over 1024,
and tiltX, tiltY are the binary64 quotients of the raw tilts by 90. -/
theorem C4_pen_event (sdk : WinSDK) (os : OS) (sink : EventSink) (hWnd : HWND)
    (uMsg : UINT) (wParam : WPARAM) (lParam : LPARAM) (uIdSubclass : UINT_PTR)
    (dwRefData : DWORD_PTR) (penInfo : POINTER_PEN_INFO) (originX originY : Int)
    (hmsg : uMsg = sdk.WM_POINTER ∨ uMsg = sdk.WM_POINTERUPDATE ∨ uMsg = sdk.WM_POINTERUP)
    (htype : os.GetPointerType (sdk.GET_POINTERID_WPARAM wParam) = some sdk.PT_PEN)
    (hpen : os.GetPointerPenInfo (sdk.GET_POINTERID_WPARAM wParam) = some penInfo)
    (hx : (os.ScreenToClient hWnd penInfo.pointerInfo.ptPixelLocation).x.val
            = penInfo.pointerInfo.ptPixelLocation.x.val - originX)
    (hy : (os.ScreenToClient hWnd penInfo.pointerInfo.ptPixelLocation).y.val
            = penInfo.pointerInfo.ptPixelLocation.y.val - originY) :
    WndSubclassProc sdk os (some (some sink)) hWnd uMsg wParam lParam uIdSubclass dwRefData
      = .ok { ret := os.DefSubclassProc hWnd uMsg wParam lParam
              g_event_sink := some (some sink)
              trace := [
                .SinkSuccess sink (.map [
                  (.string "type", .string
                    (if uMsg = sdk.WM_POINTERUP then "up"
                     else if sdk.IS_POINTER_INCONTACT_WPARAM wParam = true then "down"
                     else "move")),
                  (.string "x",
                    .double ((penInfo.pointerInfo.ptPixelLocation.x.val - originX : Int) : ℚ)),
                  (.string "y",
                    .double ((penInfo.pointerInfo.ptPixelLocation.y.val - originY : Int) : ℚ)),
                  (.string "pressure", .double ((penInfo.pressure.val : ℚ) / 1024)),
                  (.string "tiltX", .double (fdiv penInfo.tiltX.toDouble 90)),
                  (.string "tiltY", .double (fdiv penInfo.tiltY.toDouble 90))]),
                .DefSubclassProc hWnd uMsg wParam lParam] } := by
  rw [WndSubclassProc_eq]
  have he := spec_pointerEvent_pen sdk ⟨os, hWnd, uMsg, wParam, lParam, uIdSubclass, dwRefData⟩
    penInfo hmsg htype hpen
  simp only [spec_trace, he, spec_push, spec_payload, spec_normalize, hx, hy, fdiv_90_eq]
  by_cases hup : uMsg = sdk.WM_POINTERUP
  · simp [hup, Kind.name]
  · cases hc : sdk.IS_POINTER_INCONTACT_WPARAM wParam <;> simp [hup, Kind.name]

/-- C4 at the concrete input of the specification: raw pressure 512, tilt 45 and -45 degrees,
in-contact flag set, a message that is not pointer-up, screen position (150, 300), client
origin (50, 50). The sink receives the one event with type "down", x 100, y 250, pressure 1/2,
tiltX 1/2, tiltY -1/2. -/
theorem C4_pen_event_witness :
    ((0x0245 : UINT) = sampleSDK.WM_POINTER ∨ (0x0245 : UINT) = sampleSDK.WM_POINTERUPDATE
        ∨ (0x0245 : UINT) = sampleSDK.WM_POINTERUP)
    ∧ sampleOS.GetPointerType (sampleSDK.GET_POINTERID_WPARAM 262145) = some sampleSDK.PT_PEN
    ∧ sampleOS.GetPointerPenInfo (sampleSDK.GET_POINTERID_WPARAM 262145) = some samplePen
    ∧ (sampleOS.ScreenToClient 1 samplePen.pointerInfo.ptPixelLocation).x.val
        = samplePen.pointerInfo.ptPixelLocation.x.val - 50
    ∧ (sampleOS.ScreenToClient 1 samplePen.pointerInfo.ptPixelLocation).y.val
        = samplePen.pointerInfo.ptPixelLocation.y.val - 50
    ∧ WndSubclassProc sampleSDK sampleOS (some (some 5)) 1 0x0245 262145 0 1001 0
      = .ok { ret := 7
              g_event_sink := some (some 5)
              trace := [
                .SinkSuccess 5 (.map [
                  (.string "type", .string "down"),
                  (.string "x", .double 100),
                  (.string "y", .double 250),
                  (.string "pressure", .double (1 / 2)),
                  (.string "tiltX", .double (1 / 2)),
                  (.string "tiltY", .double (-(1 / 2)))]),
                .DefSubclassProc 1 0x0245 262145 0] } := by
  have hx : (sampleOS.ScreenToClient 1 samplePen.pointerInfo.ptPixelLocation).x.val
      = samplePen.pointerInfo.ptPixelLocation.x.val - 50 := by decide
  have hy : (sampleOS.ScreenToClient 1 samplePen.pointerInfo.ptPixelLocation).y.val
      = samplePen.pointerInfo.ptPixelLocation.y.val - 50 := by decide
  refine ⟨Or.inr (Or.inl rfl), rfl, rfl, hx, hy, ?_⟩
  rw [C4_pen_event sampleSDK sampleOS 5 1 0x0245 262145 0 1001 0 samplePen 50 50
    (Or.inr (Or.inl rfl)) rfl rfl hx hy]
  have htx : fdiv samplePen.tiltX.toDouble 90 = 1 / 2 := by
    rw [fdiv_90_eq]
    have e : ((samplePen.tiltX.val : ℚ) / 90) = 1 / 2 := by norm_num [samplePen]
    rw [e, roundDouble_half.1]
  have hty : fdiv samplePen.tiltY.toDouble 90 = -(1 / 2) := by
    rw [fdiv_90_eq]
    have e : ((samplePen.tiltY.val : ℚ) / 90) = -(1 / 2) := by norm_num [samplePen]
    rw [e, roundDouble_half.2]
  rw [htx, hty]
  norm_num [sampleSDK, sampleOS, samplePen]


/-- C5: in every event `WndSubclassProc` publishes, the field "pressure" is the raw pressure of
the pen sample divided by 1024 (the binary64 division of the code is exact here), with no
clamping: it lies in [0, 1] when the raw pressure is at most 1024, is 0 at raw 0 and 1 at raw
1024, and exceeds 1 when the raw pressure exceeds 1024. -/
theorem C5_pressure (sdk : WinSDK) (os : OS) (g : SinkSlot) (hWnd : HWND)
    (uMsg : UINT) (wParam : WPARAM) (lParam : LPARAM) (uIdSubclass : UINT_PTR)
    (dwRefData : DWORD_PTR) :
    ∃ o : Outcome LRESULT,
      WndSubclassProc sdk os g hWnd uMsg wParam lParam uIdSubclass dwRefData = .ok o
      ∧ ∀ sink ev, Effect.SinkSuccess sink ev ∈ o.trace →
          ∃ (penInfo : POINTER_PEN_INFO) (fields : EncodableMap) (pressure : Double),
            os.GetPointerPenInfo (sdk.GET_POINTERID_WPARAM wParam) = some penInfo
            ∧ ev = .map fields
            ∧ fields.find? (.string "pressure") = some (.double pressure)
            ∧ pressure = fdiv penInfo.pressure.toDouble 1024
            ∧ pressure = (penInfo.pressure.val : ℚ) / 1024
            ∧ (penInfo.pressure.val ≤ 1024 → 0 ≤ pressure ∧ pressure ≤ 1)
            ∧ (penInfo.pressure.val = 0 → pressure = 0)
            ∧ (penInfo.pressure.val = 1024 → pressure = 1)
            ∧ (1024 < penInfo.pressure.val → 1 < pressure) := by
  refine ⟨_, WndSubclassProc_eq sdk os g hWnd uMsg wParam lParam uIdSubclass dwRefData, ?_⟩
  intro sink ev hmem
  obtain ⟨_, e, he, hev⟩ := mem_spec_trace sdk g _ sink ev hmem
  obtain ⟨_, _, penInfo, hinfo, hnorm⟩ := spec_pointerEvent_some sdk _ e he
  refine ⟨penInfo, _, (penInfo.pressure.val : ℚ) / 1024, hinfo, hev, ?_, (fdiv_1024_eq _).symm,
    rfl, ?_, ?_, ?_, ?_⟩
  · subst hnorm
    simp [EncodableMap.find?, spec_normalize]
  · intro h
    have h' : (penInfo.pressure.val : ℚ) ≤ 1024 := by exact_mod_cast h
    have h0 : (0 : ℚ) ≤ (penInfo.pressure.val : ℚ) := Nat.cast_nonneg _
    constructor
    · positivity
    · rw [div_le_one (by norm_num)]; exact h'
  · intro h
    rw [h]; norm_num
  · intro h
    rw [h]; norm_num
  · intro h
    have h' : (1024 : ℚ) < (penInfo.pressure.val : ℚ) := by exact_mod_cast h
    rw [one_lt_div (by norm_num)]; exact h'

/-- C5 at a concrete input: the sample pen (raw pressure 512) publishes pressure 1/2, which
lies in [0, 1]. -/
theorem C5_pressure_witness :
    ∃ o : Outcome LRESULT,
      dispatch sampleSDK (some (some 5)) sampleDown = .ok o
      ∧ ∃ ev fields, Effect.SinkSuccess 5 ev ∈ o.trace ∧ ev = .map fields
          ∧ fields.find? (.string "pressure") = some (.double (1 / 2)) := by
  obtain ⟨o, ho, h⟩ := C5_pressure sampleSDK sampleOS (some (some 5)) 1 0x0245 262145 0 1001 0
  refine ⟨o, ho, ?_⟩
  have hrun := WndSubclassProc_eq sampleSDK sampleOS (some (some 5)) 1 0x0245 262145 0 1001 0
  rw [hrun] at ho
  have ho := Except.ok.inj ho
  have hpen := spec_pointerEvent_pen sampleSDK ⟨sampleOS, 1, 0x0245, 262145, 0, 1001, 0⟩
    samplePen (Or.inr (Or.inl rfl)) rfl rfl
  have hmem : Effect.SinkSuccess 5 (spec_payload (spec_normalize sampleOS samplePen 1
      (decide ((0x0245 : UINT) = sampleSDK.WM_POINTERUP))
      (sampleSDK.IS_POINTER_INCONTACT_WPARAM 262145))) ∈ o.trace := by
    rw [← ho]
    simp [spec_trace, hpen, spec_push]
  obtain ⟨penInfo, fields, pressure, hinfo, hev, hfind, _, hval, _⟩ := h 5 _ hmem
  have hp : penInfo = samplePen := (Option.some.inj hinfo).symm
  refine ⟨_, fields, hmem, hev, ?_⟩
  rw [hfind, hval, hp]
  norm_num [samplePen]

/-- C6: in every event `WndSubclassProc` publishes, each of the fields "tiltX" and "tiltY" is
the binary64 quotient of the corresponding raw tilt by 90: the double nearest to raw / 90,
within 2^-53 of it in relative terms. It has the sign of the raw tilt, lies in [-1, 1] when the
raw tilt lies in [-90, 90], is 1 at raw 90 and -1 at raw -90. -/
theorem C6_tilt (sdk : WinSDK) (os : OS) (g : SinkSlot) (hWnd : HWND)
    (uMsg : UINT) (wParam : WPARAM) (lParam : LPARAM) (uIdSubclass : UINT_PTR)
    (dwRefData : DWORD_PTR) :
    ∃ o : Outcome LRESULT,
      WndSubclassProc sdk os g hWnd uMsg wParam lParam uIdSubclass dwRefData = .ok o
      ∧ ∀ sink ev, Effect.SinkSuccess sink ev ∈ o.trace →
          ∃ (penInfo : POINTER_PEN_INFO) (fields : EncodableMap),
            os.GetPointerPenInfo (sdk.GET_POINTERID_WPARAM wParam) = some penInfo
            ∧ ev = .map fields
            ∧ ∀ axis ∈ [("tiltX", penInfo.tiltX), ("tiltY", penInfo.tiltY)],
                ∃ tilt : Double,
                  fields.find? (.string axis.1) = some (.double tilt)
                  ∧ tilt = fdiv axis.2.toDouble 90
                  ∧ |tilt - (axis.2.val : ℚ) / 90| ≤ |(axis.2.val : ℚ) / 90| / 2 ^ 53
                  ∧ (-90 ≤ axis.2.val ∧ axis.2.val ≤ 90 → -1 ≤ tilt ∧ tilt ≤ 1)
                  ∧ (0 < axis.2.val → 0 < tilt)
                  ∧ (axis.2.val < 0 → tilt < 0)
                  ∧ (axis.2.val = 0 → tilt = 0)
                  ∧ (axis.2.val = 90 → tilt = 1)
                  ∧ (axis.2.val = -90 → tilt = -1) := by
  refine ⟨_, WndSubclassProc_eq sdk os g hWnd uMsg wParam lParam uIdSubclass dwRefData, ?_⟩
  intro sink ev hmem
  obtain ⟨_, e, he, hev⟩ := mem_spec_trace sdk g _ sink ev hmem
  obtain ⟨_, _, penInfo, hinfo, hnorm⟩ := spec_pointerEvent_some sdk _ e he
  refine ⟨penInfo, _, hinfo, hev, ?_⟩
  have key : ∀ raw : INT32,
      roundDouble ((raw.val : ℚ) / 90) = fdiv raw.toDouble 90
      ∧ |roundDouble ((raw.val : ℚ) / 90) - (raw.val : ℚ) / 90|
          ≤ |(raw.val : ℚ) / 90| / 2 ^ 53
      ∧ (-90 ≤ raw.val ∧ raw.val ≤ 90 →
          -1 ≤ roundDouble ((raw.val : ℚ) / 90) ∧ roundDouble ((raw.val : ℚ) / 90) ≤ 1)
      ∧ (0 < raw.val → 0 < roundDouble ((raw.val : ℚ) / 90))
      ∧ (raw.val < 0 → roundDouble ((raw.val : ℚ) / 90) < 0)
      ∧ (raw.val = 0 → roundDouble ((raw.val : ℚ) / 90) = 0)
      ∧ (raw.val = 90 → roundDouble ((raw.val : ℚ) / 90) = 1)
      ∧ (raw.val = -90 → roundDouble ((raw.val : ℚ) / 90) = -1) := by
    intro raw
    have hone : roundDouble 1 = 1 := by
      have h := roundDouble_exact 1 0 (by norm_num)
      simpa using h
    refine ⟨(fdiv_90_eq raw).symm, roundDouble_near _, ?_, ?_, ?_, ?_, ?_, ?_⟩
    · rintro ⟨hlo, hhi⟩
      have hlo' : (-90 : ℚ) ≤ (raw.val : ℚ) := by exact_mod_cast hlo
      have hhi' : (raw.val : ℚ) ≤ 90 := by exact_mod_cast hhi
      apply roundDouble_mem_unit
      · rw [le_div_iff₀ (by norm_num)]; linarith
      · rw [div_le_iff₀ (by norm_num)]; linarith
    · intro h
      have h' : (0 : ℚ) < (raw.val : ℚ) := by exact_mod_cast h
      exact roundDouble_pos _ (by positivity)
    · intro h
      have h' : (raw.val : ℚ) < 0 := by exact_mod_cast h
      have hpos := roundDouble_pos (-((raw.val : ℚ) / 90)) (by
        rw [neg_pos]; exact div_neg_of_neg_of_pos h' (by norm_num))
      rw [roundDouble_neg] at hpos
      linarith
    · intro h
      rw [h]; simp [roundDouble]
    · intro h
      rw [h]
      have e : (((90 : ℤ) : ℚ) / 90) = 1 := by norm_num
      rw [e, hone]
    · intro h
      rw [h]
      have e : (((-90 : ℤ) : ℚ) / 90) = -1 := by norm_num
      rw [e, roundDouble_neg, hone]
  intro axis haxis
  simp only [List.mem_cons, List.mem_singleton, List.not_mem_nil, or_false] at haxis
  subst hnorm
  rcases haxis with rfl | rfl
  · exact ⟨_, by simp [EncodableMap.find?, spec_normalize], key penInfo.tiltX⟩
  · exact ⟨_, by simp [EncodableMap.find?, spec_normalize], key penInfo.tiltY⟩

/-- C6 at a concrete input: the sample pen (raw tilts 45 and -45 degrees) publishes tiltX 1/2
and tiltY -1/2, both in [-1, 1]. -/
theorem C6_tilt_witness :
    ∃ o : Outcome LRESULT,
      dispatch sampleSDK (some (some 5)) sampleDown = .ok o
      ∧ ∃ ev fields, Effect.SinkSuccess 5 ev ∈ o.trace ∧ ev = .map fields
          ∧ fields.find? (.string "tiltX") = some (.double (1 / 2))
          ∧ fields.find? (.string "tiltY") = some (.double (-(1 / 2))) := by
  obtain ⟨o, ho, h⟩ := C6_tilt sampleSDK sampleOS (some (some 5)) 1 0x0245 262145 0 1001 0
  refine ⟨o, ho, ?_⟩
  have hrun := WndSubclassProc_eq sampleSDK sampleOS (some (some 5)) 1 0x0245 262145 0 1001 0
  rw [hrun] at ho
  have ho := Except.ok.inj ho
  have hpen := spec_pointerEvent_pen sampleSDK ⟨sampleOS, 1, 0x0245, 262145, 0, 1001, 0⟩
    samplePen (Or.inr (Or.inl rfl)) rfl rfl
  have hmem : Effect.SinkSuccess 5 (spec_payload (spec_normalize sampleOS samplePen 1
      (decide ((0x0245 : UINT) = sampleSDK.WM_POINTERUP))
      (sampleSDK.IS_POINTER_INCONTACT_WPARAM 262145))) ∈ o.trace := by
    rw [← ho]
    simp [spec_trace, hpen, spec_push]
  obtain ⟨penInfo, fields, hinfo, hev, haxes⟩ := h 5 _ hmem
  have hp : penInfo = samplePen := (Option.some.inj hinfo).symm
  subst hp
  obtain ⟨tx, hfx, hvx, _⟩ := haxes ("tiltX", samplePen.tiltX) (by simp)
  obtain ⟨ty, hfy, hvy, _⟩ := haxes ("tiltY", samplePen.tiltY) (by simp)
  refine ⟨_, fields, hmem, hev, ?_, ?_⟩
  · rw [hfx, hvx, fdiv_90_eq]
    have e : ((samplePen.tiltX.val : ℚ) / 90) = 1 / 2 := by norm_num [samplePen]
    rw [e, roundDouble_half.1]
  · rw [hfy, hvy, fdiv_90_eq]
    have e : ((samplePen.tiltY.val : ℚ) / 90) = -(1 / 2) := by norm_num [samplePen]
    rw [e, roundDouble_half.2]


/-- C7: from any slot state, after on-listen with sink A and then on-listen with sink B the
slot holds exactly B; the second on-listen makes no call at all (nothing is delivered to A, no
closure notification); and for every later sequence of messages, the events published are those
of the pen messages, in order, all delivered to B, so that a sink A other than B receives
nothing. -/
theorem C7_second_subscribe_replaces (sdk : WinSDK) (A B : UniquePtr) (g0 : SinkSlot)
    (ms : List Message) :
    (onListen B (onListen A g0).g_event_sink).g_event_sink = some B
    ∧ (onListen B (onListen A g0).g_event_sink).trace = []
    ∧ (onListen B (onListen A g0).g_event_sink).ret = none
    ∧ ∃ o : Outcome Unit,
        processMessages sdk ms (onListen B (onListen A g0).g_event_sink).g_event_sink = .ok o
        ∧ o.g_event_sink = some B
        ∧ (∀ b, B = some b →
            deliveries o.trace
              = (ms.filterMap (spec_pointerEvent sdk)).map (fun e => (b, spec_payload e)))
        ∧ (∀ d ∈ deliveries o.trace, B = some d.1)
        ∧ (∀ a, A = some a → A ≠ B → deliveredTo a o.trace = []) := by
  refine ⟨rfl, rfl, rfl, _, processMessages_eq sdk _ ms, rfl, ?_⟩
  have hslot : (onListen B (onListen A g0).g_event_sink).g_event_sink = some B := rfl
  rw [hslot]
  have hall : ∀ d ∈ deliveries (spec_traces sdk (some B) ms), B = some d.1 := by
    intro d hd
    cases B with
    | none => rw [deliveries_spec_traces_empty sdk _ (Or.inr rfl)] at hd; simp at hd
    | some b =>
      rw [deliveries_spec_traces_sink] at hd
      obtain ⟨e, _, rfl⟩ := List.mem_map.mp hd
      rfl
  refine ⟨?_, hall, ?_⟩
  · intro b hb
    subst hb
    exact deliveries_spec_traces_sink sdk b ms
  · intro a ha hne
    unfold deliveredTo
    have hnil : (deliveries (spec_traces sdk (some B) ms)).filter (fun d => d.1 = a) = [] := by
      rw [List.filter_eq_nil_iff]
      intro d hd
      have := hall d hd
      simp only [decide_eq_true_eq]
      intro hda
      apply hne
      rw [ha, this, hda]
    rw [hnil]
    rfl

/-- C7 at a concrete input: sink 4 subscribes, then sink 5; a pen message, a touch message and
a pen-up message follow. Sink 5 receives the two pen events and sink 4 receives nothing. -/
theorem C7_second_subscribe_replaces_witness :
    ∃ o : Outcome Unit,
      processMessages sampleSDK [sampleDown, sampleTouch, sampleUp]
          (onListen (some 5) (onListen (some 4) none).g_event_sink).g_event_sink = .ok o
      ∧ (deliveries o.trace).map Prod.fst = [5, 5]
      ∧ deliveredTo 4 o.trace = [] := by
  obtain ⟨_, _, _, o, ho, _, hB, _, hA⟩ :=
    C7_second_subscribe_replaces sampleSDK (some 4) (some 5) none
      [sampleDown, sampleTouch, sampleUp]
  refine ⟨o, ho, ?_, hA 4 rfl (by decide)⟩
  rw [hB 5 rfl]
  have h1 := spec_pointerEvent_pen sampleSDK sampleDown samplePen (Or.inr (Or.inl rfl)) rfl rfl
  have h3 := spec_pointerEvent_pen sampleSDK sampleUp samplePen (Or.inr (Or.inr rfl)) rfl rfl
  have h2 : spec_pointerEvent sampleSDK sampleTouch = none := by
    simp [spec_pointerEvent, spec_classify, sampleTouch, touchOS, sampleSDK]
  simp [List.filterMap_cons, h1, h2, h3]

/-- C8: the slot is empty at startup; on-cancel empties it from any state, makes no call, and
does the same on an already empty slot. With the slot empty every message, a valid pen message
included, runs without error, delivers nothing, leaves the slot empty and makes the one call of
default handling. Nothing is queued: when messages are handled with the slot empty and a sink
then subscribes, all the sink ever receives are the events of the messages handled after it
subscribed. -/
theorem C8_empty_slot_drops (sdk : WinSDK) :
    g_event_sink_init = none
    ∧ (∀ g : SinkSlot, (onCancel g).g_event_sink = none ∧ (onCancel g).trace = []
        ∧ (onCancel g).ret = none
        ∧ onCancel (onCancel g).g_event_sink = onCancel g)
    ∧ (∀ (os : OS) (hWnd : HWND) (uMsg : UINT) (wParam : WPARAM) (lParam : LPARAM)
        (uIdSubclass : UINT_PTR) (dwRefData : DWORD_PTR),
        WndSubclassProc sdk os none hWnd uMsg wParam lParam uIdSubclass dwRefData
          = .ok { ret := os.DefSubclassProc hWnd uMsg wParam lParam
                  g_event_sink := none
                  trace := [.DefSubclassProc hWnd uMsg wParam lParam] })
    ∧ (∀ (before after : List Message) (sink : EventSink),
        ∃ o1 o2 : Outcome Unit,
          processMessages sdk before none = .ok o1
          ∧ o1.g_event_sink = none
          ∧ deliveries o1.trace = []
          ∧ processMessages sdk after (onListen (some sink) o1.g_event_sink).g_event_sink
              = .ok o2
          ∧ deliveries (o1.trace ++ (onListen (some sink) o1.g_event_sink).trace ++ o2.trace)
              = (after.filterMap (spec_pointerEvent sdk)).map
                  (fun e => (sink, spec_payload e))) := by
  refine ⟨rfl, fun g => ⟨rfl, rfl, rfl, rfl⟩, ?_, ?_⟩
  · intro os hWnd uMsg wParam lParam uIdSubclass dwRefData
    rw [WndSubclassProc_eq]
    have : spec_trace sdk none ⟨os, hWnd, uMsg, wParam, lParam, uIdSubclass, dwRefData⟩
        = [.DefSubclassProc hWnd uMsg wParam lParam] := by
      unfold spec_trace
      cases spec_pointerEvent sdk ⟨os, hWnd, uMsg, wParam, lParam, uIdSubclass, dwRefData⟩ <;>
        simp [spec_push]
    rw [this]
  · intro before after sink
    refine ⟨_, _, processMessages_eq sdk none before, rfl,
      deliveries_spec_traces_empty sdk none (Or.inl rfl) before,
      processMessages_eq sdk _ after, ?_⟩
    rw [deliveries_append, deliveries_append,
      deliveries_spec_traces_empty sdk none (Or.inl rfl) before]
    simpa [onListen, deliveries] using deliveries_spec_traces_sink sdk sink after

/-- C8 at a concrete input: a valid pen message handled with the slot empty delivers nothing,
and sink 5, subscribing afterwards, receives only the event of the later pen-up message. -/
theorem C8_empty_slot_drops_witness :
    ∃ o1 o2 : Outcome Unit,
      processMessages sampleSDK [sampleDown] none = .ok o1
      ∧ deliveries o1.trace = []
      ∧ processMessages sampleSDK [sampleUp] (onListen (some 5) o1.g_event_sink).g_event_sink
          = .ok o2
      ∧ (deliveries (o1.trace ++ (onListen (some 5) o1.g_event_sink).trace ++ o2.trace)).length
          = 1 := by
  obtain ⟨o1, o2, h1, _, hd, h2, hall⟩ :=
    (C8_empty_slot_drops sampleSDK).2.2.2 [sampleDown] [sampleUp] 5
  refine ⟨o1, o2, h1, hd, h2, ?_⟩
  rw [hall]
  have h3 := spec_pointerEvent_pen sampleSDK sampleUp samplePen (Or.inr (Or.inr rfl)) rfl rfl
  simp [List.filterMap_cons, h3]

/-- C9: for every finite sequence of messages handled one after another while one non-null
sink stays subscribed, the run completes, the sink is still subscribed, and the list of events
delivered is, in the same order, the list of the normalised events of the messages that have
one, each delivered to that sink; a message has one exactly when it is a pointer message of a
pointer reported as a pen whose pen sample is returned. -/
theorem C9_events_in_message_order (sdk : WinSDK) (sink : EventSink) (ms : List Message) :
    (∃ o : Outcome Unit,
      processMessages sdk ms (some (some sink)) = .ok o
      ∧ o.g_event_sink = some (some sink)
      ∧ deliveries o.trace
          = (ms.filterMap (spec_pointerEvent sdk)).map (fun e => (sink, spec_payload e)))
    ∧ ∀ m : Message, (spec_pointerEvent sdk m).isSome = true ↔
        ((m.uMsg = sdk.WM_POINTER ∨ m.uMsg = sdk.WM_POINTERUPDATE ∨ m.uMsg = sdk.WM_POINTERUP)
          ∧ m.os.GetPointerType (sdk.GET_POINTERID_WPARAM m.wParam) = some sdk.PT_PEN
          ∧ (m.os.GetPointerPenInfo (sdk.GET_POINTERID_WPARAM m.wParam)).isSome = true) := by
  refine ⟨⟨_, processMessages_eq sdk _ ms, rfl, deliveries_spec_traces_sink sdk sink ms⟩, ?_⟩
  intro m
  constructor
  · intro h
    obtain ⟨e, he⟩ := Option.isSome_iff_exists.mp h
    obtain ⟨hmsg, htype, penInfo, hinfo, _⟩ := spec_pointerEvent_some sdk m e he
    exact ⟨hmsg, htype, by rw [hinfo]; rfl⟩
  · rintro ⟨hmsg, htype, hinfo⟩
    obtain ⟨penInfo, hpen⟩ := Option.isSome_iff_exists.mp hinfo
    rw [spec_pointerEvent_pen sdk m penInfo hmsg htype hpen]
    rfl

/-- C9 at a concrete input: a pen message, a touch message and a pen-up message, with sink 5
subscribed, deliver two events to sink 5: first one of type "down", then one of type "up". -/
theorem C9_events_in_message_order_witness :
    ∃ o : Outcome Unit,
      processMessages sampleSDK [sampleDown, sampleTouch, sampleUp] (some (some 5)) = .ok o
      ∧ (deliveries o.trace).map (fun d =>
            match d.2 with
            | .map fields => (d.1, fields.find? (.string "type"))
            | .scalar _ => (d.1, none))
          = [(5, some (.string "down")), (5, some (.string "up"))] := by
  obtain ⟨⟨o, ho, _, hd⟩, _⟩ :=
    C9_events_in_message_order sampleSDK 5 [sampleDown, sampleTouch, sampleUp]
  refine ⟨o, ho, ?_⟩
  rw [hd]
  have h1 := spec_pointerEvent_pen sampleSDK sampleDown samplePen (Or.inr (Or.inl rfl)) rfl rfl
  have h3 := spec_pointerEvent_pen sampleSDK sampleUp samplePen (Or.inr (Or.inr rfl)) rfl rfl
  have h2 : spec_pointerEvent sampleSDK sampleTouch = none := by
    simp [spec_pointerEvent, spec_classify, sampleTouch, touchOS, sampleSDK]
  simp only [List.filterMap_cons, List.filterMap_nil, h1, h2, h3]
  simp [spec_payload, spec_normalize, EncodableMap.find?, sampleDown, sampleUp, sampleSDK,
    Kind.name]

/-- C10: `HandleMethodCall` answers with success carrying the boolean true exactly when the
method name is "isInkSupported", whatever the arguments, and with not-implemented for every
other name ("foo" for one); either way it gives exactly one response, makes no other call and
leaves the subscriber slot as it was. -/
theorem C10_method_call (method_name : String) (arguments : EncodableValue) (g : SinkSlot) :
    ((HandleMethodCall method_name arguments g).trace
        = [.ResultSuccess (.scalar (.bool true))] ↔ method_name = "isInkSupported")
    ∧ ((HandleMethodCall method_name arguments g).trace
        = [.ResultNotImplemented] ↔ method_name ≠ "isInkSupported")
    ∧ (responses (HandleMethodCall method_name arguments g).trace).length = 1
    ∧ (HandleMethodCall method_name arguments g).trace.length = 1
    ∧ (HandleMethodCall method_name arguments g).g_event_sink = g
    ∧ (HandleMethodCall "isInkSupported" arguments g).trace
        = [.ResultSuccess (.scalar (.bool true))]
    ∧ (HandleMethodCall "foo" arguments g).trace = [.ResultNotImplemented] := by
  unfold HandleMethodCall
  by_cases h : method_name = "isInkSupported"
  · simp [h, responses]
  · simp [h, responses]

end windows_ink_plugin
